import Mathlib

/-!
Shallow embedding of the calculation engine of `src/portfolio_tracker.py`
(portfolio valuation and monthly dividend aggregation) and proofs of the
specification's claims about it.

Python `Decimal` values are modelled as exact rationals (`ℚ`).  A spreadsheet
cell is `Option ℚ`: `some q` when the cell's text parses as a number and
`none` when parsing fails.  The yfinance dividend feed is an injected
function `String → Option (List DivEvent)`; `none` models a fetch that
raises, and `some []` models a fetch that returns no data.
-/

/-- Rounding a (scaled) rational to the nearest integer with ties away from
zero, mirroring Python decimal ROUND_HALF_UP used by `decimal_round`. -/
def roundHalfUpScaled (x : ℚ) : ℤ :=
  if 0 ≤ x then Rat.floor (x + 1/2) else -Rat.floor (-x + 1/2)

/-- `decimal_round` (line 15): quantize to `places` decimal digits with
ROUND_HALF_UP.  The source's default argument `places=2` is used at every
call site; here it is passed explicitly. -/
def decimal_round (value : ℚ) (places : ℕ) : ℚ :=
  (roundHalfUpScaled (value * 10 ^ places) : ℚ) / 10 ^ places

/-- A spreadsheet cell: `some q` when it parses as a number, `none` when
`Decimal(str(value))` would raise. -/
abbrev Cell := Option ℚ

/-- `to_decimal` (line 9): a value that parses passes through exactly; a
value that fails to parse coerces to 0 instead of raising. -/
def to_decimal (value : Cell) : ℚ :=
  match value with
  | some q => q
  | none => 0

/-- Python `str.endswith`, modelled on the character lists of the strings. -/
def strEndsWith (s p : String) : Bool :=
  p.data.isSuffixOf s.data

/-- Python `str.strip`: drop whitespace from both ends, modelled on the
character list of the string. -/
def pyStrip (s : String) : String :=
  ⟨((s.data.dropWhile Char.isWhitespace).reverse.dropWhile Char.isWhitespace).reverse⟩

/-- Helper of `pySplit`: split a character list at every separator. -/
def pySplitAux (sep : Char) : List Char → List (List Char)
  | [] => [[]]
  | c :: cs =>
    if c = sep then [] :: pySplitAux sep cs
    else
      match pySplitAux sep cs with
      | [] => [[c]]
      | h :: t => (c :: h) :: t

/-- Python `str.split` on one separator character, modelled on the
character list of the string. -/
def pySplit (sep : Char) (s : String) : List String :=
  (pySplitAux sep s.data).map (fun cs => ⟨cs⟩)

/-- Ticker normalization (line 46): append the `.NS` exchange suffix when it
is absent, pass an already-suffixed ticker through unchanged. -/
def normalize_ticker (t : String) : String :=
  if strEndsWith t ".NS" then t else t ++ ".NS"

/-- One spreadsheet row, with the cells the loader reads. -/
structure Row where
  symbolCell : String
  quantityCell : Cell
  averagePriceCell : Cell
  previousCloseCell : Cell
deriving DecidableEq

/-- The tabular input of `read_portfolio_from_excel`: column names plus rows. -/
structure Table where
  columns : List String
  rows : List Row
deriving DecidableEq

/-- One holding of the valuation view, as built by the loop body of
`read_portfolio_from_excel` (lines 42-65). -/
structure Holding where
  ticker : String
  company : String
  shares : ℚ
  buyPrice : ℚ
  prevClose : ℚ
  investedAmount : ℚ
  currentValue : ℚ
  gainLoss : ℚ
deriving DecidableEq

/-- The loop body of `read_portfolio_from_excel` (lines 42-65): skip rows
whose stripped symbol is empty, otherwise build the holding with the two
rounded products and the rounded difference. -/
def process_row (row : Row) : Option Holding :=
  let ticker_raw := pyStrip row.symbolCell
  if ticker_raw = "" then none
  else
    let ticker := normalize_ticker ticker_raw
    let shares := to_decimal row.quantityCell
    let buy_price := to_decimal row.averagePriceCell
    let prev_close := to_decimal row.previousCloseCell
    let invested_amount := decimal_round (shares * buy_price) 2
    let current_value := decimal_round (shares * prev_close) 2
    let gain_loss := decimal_round (current_value - invested_amount) 2
    some ⟨ticker, ticker_raw, shares, buy_price, prev_close,
          invested_amount, current_value, gain_loss⟩

/-- The required columns of the loader (line 35). -/
def required_cols : List String :=
  ["Symbol", "Quantity Available", "Average Price", "Previous Closing Price"]

/-- `read_portfolio_from_excel` (lines 27-66), from the parsed table onward:
the first missing required column aborts the pass with an error naming that
column and no holdings; otherwise every row is processed in order.  The
second component collects the `st.error` messages. -/
def read_portfolio_from_excel (df : Table) : List Holding × List String :=
  match required_cols.find? (fun col => !(df.columns.contains col)) with
  | some col => ([], ["Missing required column " ++ col ++ " in Excel sheet."])
  | none => (df.rows.filterMap process_row, [])

/-- Line 224: sum of the already-rounded per-row invested amounts. -/
def total_invested (portfolio : List Holding) : ℚ :=
  (portfolio.map Holding.investedAmount).sum

/-- Line 225: sum of the already-rounded per-row current values. -/
def total_current (portfolio : List Holding) : ℚ :=
  (portfolio.map Holding.currentValue).sum

/-- Line 226: sum of the already-rounded per-row gain/loss values. -/
def total_gain (portfolio : List Holding) : ℚ :=
  (portfolio.map Holding.gainLoss).sum

/-- One historical per-share dividend distribution (one entry of the
yfinance dividends series): ex-date year and month plus the per-share
amount. -/
structure DivEvent where
  year : ℤ
  month : ℕ
  amount : ℚ
deriving DecidableEq

/-- `fetch_dividends` (lines 19-24): the feed either yields the symbol's
event list or fails; a failure is caught and becomes the empty series. -/
def fetch_dividends (feed : String → Option (List DivEvent)) (ticker : String) :
    List DivEvent :=
  match feed ticker with
  | some ds => ds
  | none => []

/-- Line 191: keep only the events whose ex-date falls in the target year. -/
def div_selected_year (dividends : List DivEvent) (year : ℤ) : List DivEvent :=
  dividends.filter (fun e => e.year == year)

/-- Line 194: the per-share amounts of one month's group, summed.  The
source performs this sum on a float64 pandas series and only converts the
result to `Decimal` at line 198; this embedding sums exactly, following the
spec's numeric policy (§4.1: exact decimal, not binary floating point).
The divergence between the two is recorded under claim C1. -/
def monthly_sum (selected : List DivEvent) (month : ℕ) : ℚ :=
  ((selected.filter (fun e => e.month == month)).map DivEvent.amount).sum

/-- The body of the loop over portfolio items (lines 183-198): skip a symbol
whose fetched series is empty, otherwise add shares times the month's
grouped per-share sum into each month's bucket. -/
def dividend_step (feed : String → Option (List DivEvent)) (year : ℤ)
    (monthly_dividends : ℕ → ℚ) (item : String × ℚ) : ℕ → ℚ :=
  let dividends := fetch_dividends feed item.1
  if dividends.isEmpty then monthly_dividends
  else fun month =>
    monthly_dividends month +
      item.2 * monthly_sum (div_selected_year dividends year) month

/-- The monthly buckets of `dividend_tracker` (lines 181-198): start from
zero for every month and fold the loop body over the portfolio. -/
def dividend_tracker_monthly (feed : String → Option (List DivEvent))
    (portfolio : List (String × ℚ)) (year : ℤ) : ℕ → ℚ :=
  portfolio.foldl (dividend_step feed year) (fun _ => 0)

/-- Lines 200-204: the displayed table, one `(month, bucket)` entry for each
month 1 through 12. -/
def monthly_table (monthly_dividends : ℕ → ℚ) : List (ℕ × ℚ) :=
  (List.range 12).map (fun i => (i + 1, monthly_dividends (i + 1)))

/-- Line 206: the yearly total, the sum of the twelve monthly buckets. -/
def total_div (monthly_dividends : ℕ → ℚ) : ℚ :=
  ((List.range 12).map (fun i => monthly_dividends (i + 1))).sum

/-- `get_dividend_portfolio` (lines 154-169), from the two entered strings
onward: split on commas, drop blank entries, report an error and return the
empty portfolio when the counts differ, otherwise pair them up.  `parse`
stands for Python `Decimal` string parsing inside `to_decimal`. -/
def get_dividend_portfolio (parse : String → Cell)
    (tickers_str quantities_str : String) :
    List (String × ℚ) × List String :=
  let tickers :=
    ((pySplit ',' tickers_str).filter (fun t => pyStrip t != "")).map pyStrip
  let quantities :=
    ((pySplit ',' quantities_str).filter (fun q => pyStrip q != "")).map
      (fun q => to_decimal (parse (pyStrip q)))
  if tickers.length ≠ quantities.length then
    ([], ["Ticker count and quantity count must be equal."])
  else
    (tickers.zip quantities, [])

/-- Stated from the spec (§4.2): a month's dividend income is the sum, over
all holdings and over all dividend events of that holding's symbol whose
ex-date falls in the target year and that month, of shares times
amountPerShare — per-event multiply, then sum. -/
def specMonthlyIncome (feed : String → Option (List DivEvent))
    (portfolio : List (String × ℚ)) (year : ℤ) (month : ℕ) : ℚ :=
  (portfolio.map (fun item =>
    (((fetch_dividends feed item.1).filter
        (fun e => e.year == year && e.month == month)).map
      (fun e => item.2 * e.amount)).sum)).sum

/-- Stated from the spec (§8 and glossary): `y` is `x` rounded to exactly two
decimal places with round-half-up (ties away from zero): `y` is a whole
number of hundredths, within half a hundredth of `x`, and an exact tie is
resolved away from zero. -/
def spec_round2_half_up (x y : ℚ) : Prop :=
  (y * 100).den = 1 ∧ |y - x| ≤ 1/200 ∧ (|y - x| = 1/200 → |y| = |x| + 1/200)

/-- Demonstration feed used by the dividend witnesses: the fetch raises for
`FAIL.NS` (the series becomes empty via the except branch), returns no data
for `EMPTY.NS`, and yields one April 2023 event of 2 per share otherwise. -/
def demo_feed (s : String) : Option (List DivEvent) :=
  if s = "FAIL.NS" then none
  else if s = "EMPTY.NS" then some []
  else some [⟨2023, 4, 2⟩]

/-! ### Properties of the rounding primitive -/

/-- `Rat.floor` agrees with the mathematical floor on `ℚ`. -/
theorem ratFloor_eq_intFloor (q : ℚ) : Rat.floor q = ⌊q⌋ := by
  rw [Rat.floor_def', Rat.floor_def]

/-- `roundHalfUpScaled` written with the mathematical floor. -/
theorem roundHalfUpScaled_eq (x : ℚ) :
    roundHalfUpScaled x = if 0 ≤ x then ⌊x + 1/2⌋ else -⌊-x + 1/2⌋ := by
  unfold roundHalfUpScaled
  rw [ratFloor_eq_intFloor, ratFloor_eq_intFloor]

theorem floor_one_half : ⌊(1/2 : ℚ)⌋ = 0 := by
  rw [Int.floor_eq_iff]
  constructor <;> norm_num

theorem floor_add_half (k : ℤ) : ⌊(k : ℚ) + 1/2⌋ = k := by
  rw [add_comm, Int.floor_add_int, floor_one_half, zero_add]

/-- Rounding an integer leaves it unchanged. -/
theorem roundHalfUpScaled_intCast (k : ℤ) : roundHalfUpScaled (k : ℚ) = k := by
  rw [roundHalfUpScaled_eq]
  split
  · rw [floor_add_half]
  · rw [show -(k : ℚ) = ((-k : ℤ) : ℚ) from by push_cast; ring, floor_add_half]
    ring

/-- Quantities that are already whole hundredths are fixed by `decimal_round`. -/
theorem decimal_round_hundredth (k : ℤ) :
    decimal_round ((k : ℚ) / 100) 2 = (k : ℚ) / 100 := by
  unfold decimal_round
  rw [show (k : ℚ) / 100 * 10 ^ 2 = (k : ℚ) from by ring, roundHalfUpScaled_intCast]
  norm_num

/-- `decimal_round` is the identity on values exact to two decimal places. -/
theorem decimal_round_eq_self (x : ℚ) (h : (x * 100).den = 1) :
    decimal_round x 2 = x := by
  have hk : ((x * 100).num : ℚ) = x * 100 := (Rat.den_eq_one_iff _).mp h
  have hx : x = ((x * 100).num : ℚ) / 100 := by rw [hk]; ring
  rw [hx, decimal_round_hundredth]

/-- A rounded value is a whole number of hundredths. -/
theorem decimal_round_den (x : ℚ) : (decimal_round x 2 * 100).den = 1 := by
  rw [show decimal_round x 2 * 100 = (roundHalfUpScaled (x * 10 ^ 2) : ℚ) from by
    unfold decimal_round; ring]
  exact Rat.den_intCast _

/-- A difference of two whole-hundredth values is a whole-hundredth value. -/
theorem sub_den_one (a b : ℚ) (ha : (a * 100).den = 1) (hb : (b * 100).den = 1) :
    ((a - b) * 100).den = 1 := by
  have hm : ((a * 100).num : ℚ) = a * 100 := (Rat.den_eq_one_iff _).mp ha
  have hn : ((b * 100).num : ℚ) = b * 100 := (Rat.den_eq_one_iff _).mp hb
  rw [show (a - b) * 100 = (((a * 100).num - (b * 100).num : ℤ) : ℚ) from by
    push_cast [hm, hn]; ring]
  exact Rat.den_intCast _

/-- The scaled rounding lands within one half of the scaled input. -/
theorem roundHalfUpScaled_close (x : ℚ) : |(roundHalfUpScaled x : ℚ) - x| ≤ 1/2 := by
  rw [roundHalfUpScaled_eq]
  split
  · rw [abs_le]
    have h1 := Int.sub_one_lt_floor (x + 1/2)
    have h2 := Int.floor_le (x + 1/2)
    constructor <;> push_cast at h1 h2 ⊢ <;> linarith
  · rw [abs_le]
    have h1 := Int.sub_one_lt_floor (-x + 1/2)
    have h2 := Int.floor_le (-x + 1/2)
    constructor <;> push_cast at h1 h2 ⊢ <;> linarith

/-- At an exact tie the scaled rounding moves away from zero. -/
theorem roundHalfUpScaled_tie (x : ℚ)
    (h : |(roundHalfUpScaled x : ℚ) - x| = 1/2) :
    |(roundHalfUpScaled x : ℚ)| = |x| + 1/2 := by
  rw [roundHalfUpScaled_eq] at h ⊢
  by_cases hx : 0 ≤ x
  · rw [if_pos hx] at h ⊢
    have h1 := Int.sub_one_lt_floor (x + 1/2)
    rcases (abs_eq (by norm_num : (0:ℚ) ≤ 1/2)).mp h with h2 | h2
    · rw [abs_of_nonneg hx,
        abs_of_nonneg (by linarith : (0:ℚ) ≤ ((⌊x + 1/2⌋ : ℤ) : ℚ))]
      linarith
    · exfalso
      push_cast at h1
      linarith
  · rw [if_neg hx] at h ⊢
    push_neg at hx
    push_cast at h ⊢
    have h1 := Int.sub_one_lt_floor (-x + 1/2)
    push_cast at h1
    rcases (abs_eq (by norm_num : (0:ℚ) ≤ 1/2)).mp h with h2 | h2
    · exfalso
      linarith
    · rw [abs_of_neg hx,
        abs_of_nonpos (by linarith : -((⌊-x + 1/2⌋ : ℤ) : ℚ) ≤ 0)]
      linarith

/-- `decimal_round _ 2` satisfies the spec's description of two-decimal
round-half-up. -/
theorem decimal_round_half_up (x : ℚ) :
    spec_round2_half_up x (decimal_round x 2) := by
  have e1 : decimal_round x 2 * 100 = (roundHalfUpScaled (x * 10 ^ 2) : ℚ) := by
    unfold decimal_round; ring
  have e2 : decimal_round x 2 - x
      = ((roundHalfUpScaled (x * 10 ^ 2) : ℚ) - x * 10 ^ 2) / 100 := by
    unfold decimal_round; ring
  have e3 : decimal_round x 2 = (roundHalfUpScaled (x * 10 ^ 2) : ℚ) / 100 := by
    unfold decimal_round; ring
  refine ⟨?_, ?_, ?_⟩
  · rw [e1]; exact Rat.den_intCast _
  · have hc := roundHalfUpScaled_close (x * 10 ^ 2)
    rw [e2, abs_div, show |(100:ℚ)| = 100 from by norm_num]
    linarith
  · intro ht
    rw [e2, abs_div, show |(100:ℚ)| = 100 from by norm_num] at ht
    have ht2 : |(roundHalfUpScaled (x * 10 ^ 2) : ℚ) - x * 10 ^ 2| = 1/2 := by
      linarith
    have htie := roundHalfUpScaled_tie (x * 10 ^ 2) ht2
    rw [e3, abs_div, show |(100:ℚ)| = 100 from by norm_num, htie,
      abs_mul, show |(10:ℚ) ^ 2| = 100 from by
        rw [abs_of_nonneg (by norm_num : (0:ℚ) ≤ 10 ^ 2)]; norm_num]
    ring

/-! ### Properties of the holdings loader -/

/-- Unfolding of a successful `process_row`: the produced holding's fields in
terms of the row. -/
theorem process_row_eq_some {row : Row} {h : Holding}
    (hp : process_row row = some h) :
    pyStrip row.symbolCell ≠ "" ∧
    h.ticker = normalize_ticker (pyStrip row.symbolCell) ∧
    h.company = pyStrip row.symbolCell ∧
    h.shares = to_decimal row.quantityCell ∧
    h.buyPrice = to_decimal row.averagePriceCell ∧
    h.prevClose = to_decimal row.previousCloseCell ∧
    h.investedAmount = decimal_round (h.shares * h.buyPrice) 2 ∧
    h.currentValue = decimal_round (h.shares * h.prevClose) 2 ∧
    h.gainLoss = decimal_round (h.currentValue - h.investedAmount) 2 := by
  unfold process_row at hp
  by_cases hs : pyStrip row.symbolCell = ""
  · rw [if_pos hs] at hp
    simp at hp
  · rw [if_neg hs] at hp
    simp only [Option.some.injEq] at hp
    subst hp
    exact ⟨hs, rfl, rfl, rfl, rfl, rfl, rfl, rfl, rfl⟩

/-- A holding delivered by the loader comes from some row of the table. -/
theorem mem_read_portfolio {df : Table} {h : Holding}
    (hmem : h ∈ (read_portfolio_from_excel df).1) :
    ∃ row ∈ df.rows, process_row row = some h := by
  unfold read_portfolio_from_excel at hmem
  cases hfind : required_cols.find? (fun col => !(df.columns.contains col)) with
  | some col =>
    rw [hfind] at hmem
    simp at hmem
  | none =>
    rw [hfind] at hmem
    simpa using List.mem_filterMap.mp hmem

/-- A row produces a holding exactly when its stripped symbol is nonempty. -/
theorem process_row_isSome_iff (row : Row) :
    (process_row row).isSome = (pyStrip row.symbolCell != "") := by
  unfold process_row
  by_cases hs : pyStrip row.symbolCell = ""
  · rw [if_pos hs]
    simp [hs]
  · rw [if_neg hs]
    simp [hs]

/-- Every row with a nonempty stripped symbol yields exactly one holding; no
parse failure in a numeric cell removes a row. -/
theorem length_filterMap_rows (rows : List Row) :
    (rows.filterMap process_row).length
      = (rows.filter (fun r => pyStrip r.symbolCell != "")).length := by
  induction rows with
  | nil => rfl
  | cons r t ih =>
    by_cases hr : pyStrip r.symbolCell = ""
    · have h1 : process_row r = none := by
        unfold process_row
        rw [if_pos hr]
      simp [List.filterMap_cons, List.filter_cons, h1, hr, ih]
    · have h1 : (process_row r).isSome = true := by
        rw [process_row_isSome_iff]
        simp [hr]
      obtain ⟨h, hh⟩ := Option.isSome_iff_exists.mp h1
      simp [List.filterMap_cons, List.filter_cons, hh, hr, ih]

/-- Shared core of claims C3 and C4: every loaded holding's gain/loss equals
its current value minus its invested amount, exactly. -/
theorem holding_gain_exact {df : Table} {h : Holding}
    (hmem : h ∈ (read_portfolio_from_excel df).1) :
    h.gainLoss = h.currentValue - h.investedAmount := by
  obtain ⟨row, _, hp⟩ := mem_read_portfolio hmem
  obtain ⟨-, -, -, -, -, -, hinv, hcur, hg⟩ := process_row_eq_some hp
  have h1 : (h.currentValue * 100).den = 1 := by
    rw [hcur]; exact decimal_round_den _
  have h2 : (h.investedAmount * 100).den = 1 := by
    rw [hinv]; exact decimal_round_den _
  rw [hg]
  exact decimal_round_eq_self _ (sub_den_one _ _ h1 h2)

/-- Sum of per-holding differences equals the difference of the sums. -/
theorem sum_map_sub_lists (l : List Holding)
    (hl : ∀ h ∈ l, h.gainLoss = h.currentValue - h.investedAmount) :
    (l.map Holding.gainLoss).sum
      = (l.map Holding.currentValue).sum - (l.map Holding.investedAmount).sum := by
  induction l with
  | nil => simp
  | cons a t ih =>
    simp only [List.map_cons, List.sum_cons]
    rw [hl a (List.mem_cons_self a t), ih (fun x hx => hl x (List.mem_cons_of_mem a hx))]
    ring

/-- Claim C2: for every portfolio row kept by the loader, investedAmount is
shares times averageBuyPrice rounded to exactly two decimal places with
round-half-up, and currentValue is shares times referencePrice rounded the
same way, in exact decimal arithmetic. -/
theorem C2_row_values_rounded_half_up (df : Table) (h : Holding)
    (hmem : h ∈ (read_portfolio_from_excel df).1) :
    h.investedAmount = decimal_round (h.shares * h.buyPrice) 2 ∧
    spec_round2_half_up (h.shares * h.buyPrice) h.investedAmount ∧
    h.currentValue = decimal_round (h.shares * h.prevClose) 2 ∧
    spec_round2_half_up (h.shares * h.prevClose) h.currentValue := by
  obtain ⟨row, _, hp⟩ := mem_read_portfolio hmem
  obtain ⟨-, -, -, -, -, -, hinv, hcur, -⟩ := process_row_eq_some hp
  refine ⟨hinv, ?_, hcur, ?_⟩
  · rw [hinv]; exact decimal_round_half_up _
  · rw [hcur]; exact decimal_round_half_up _

/-- Claim C4: for every loaded holding, gainLoss equals currentValue minus
investedAmount exactly; the second rounding of the difference changes
nothing because the difference of two two-decimal-exact values is itself
two-decimal exact. -/
theorem C4_gain_loss_exact_difference (df : Table) (h : Holding)
    (hmem : h ∈ (read_portfolio_from_excel df).1) :
    h.gainLoss = h.currentValue - h.investedAmount :=
  holding_gain_exact hmem

/-- Claim C3: the reported totals are the exact sums of the already-rounded
per-row values (round first, then sum), and consequently the total gain/loss
equals total current value minus total invested. -/
theorem C3_totals_round_then_sum (df : Table) :
    total_invested (read_portfolio_from_excel df).1
        = ((read_portfolio_from_excel df).1.map
            (fun h => decimal_round (h.shares * h.buyPrice) 2)).sum ∧
    total_current (read_portfolio_from_excel df).1
        = ((read_portfolio_from_excel df).1.map
            (fun h => decimal_round (h.shares * h.prevClose) 2)).sum ∧
    total_gain (read_portfolio_from_excel df).1
        = total_current (read_portfolio_from_excel df).1
            - total_invested (read_portfolio_from_excel df).1 := by
  refine ⟨?_, ?_, ?_⟩
  · unfold total_invested
    congr 1
    apply List.map_congr_left
    intro h hmem
    obtain ⟨row, _, hp⟩ := mem_read_portfolio hmem
    exact (process_row_eq_some hp).2.2.2.2.2.2.1
  · unfold total_current
    congr 1
    apply List.map_congr_left
    intro h hmem
    obtain ⟨row, _, hp⟩ := mem_read_portfolio hmem
    exact (process_row_eq_some hp).2.2.2.2.2.2.2.1
  · unfold total_gain total_current total_invested
    exact sum_map_sub_lists _ (fun h hm => holding_gain_exact hm)

/-- Claim C7: a missing required column makes the loader produce zero
holdings and report a configuration error naming a specific missing
required column. -/
theorem C7_missing_column_fail_fast (df : Table)
    (hmiss : ∃ col ∈ required_cols, ¬ df.columns.contains col) :
    (read_portfolio_from_excel df).1 = [] ∧
    ∃ col ∈ required_cols, ¬ df.columns.contains col ∧
      (read_portfolio_from_excel df).2
        = ["Missing required column " ++ col ++ " in Excel sheet."] := by
  have hsome : (required_cols.find? (fun col => !(df.columns.contains col))).isSome := by
    rw [List.find?_isSome]
    obtain ⟨c, hc, hnc⟩ := hmiss
    exact ⟨c, hc, by simpa using hnc⟩
  obtain ⟨c, hc⟩ := Option.isSome_iff_exists.mp hsome
  unfold read_portfolio_from_excel
  rw [hc]
  refine ⟨rfl, c, List.mem_of_find?_eq_some hc, ?_, rfl⟩
  simpa using List.find?_some hc

/-- Claim C8: a cell that fails numeric parsing coerces to exactly zero, the
loader still emits one holding for every row with a nonempty symbol, and a
row whose quantity cell failed to parse yields a holding with zero shares. -/
theorem C8_unparseable_cell_coerces_to_zero (df : Table)
    (hcols : required_cols.all (fun col => df.columns.contains col) = true) :
    to_decimal none = 0 ∧
    (read_portfolio_from_excel df).1.length
      = (df.rows.filter (fun r => pyStrip r.symbolCell != "")).length ∧
    ∀ row ∈ df.rows, pyStrip row.symbolCell ≠ "" → row.quantityCell = none →
      ∃ h, process_row row = some h ∧ h.shares = 0 := by
  refine ⟨rfl, ?_, ?_⟩
  · have hnone : required_cols.find? (fun col => !(df.columns.contains col)) = none := by
      rw [List.find?_eq_none]
      intro c hcmem
      have hcc := List.all_eq_true.mp hcols c hcmem
      rw [hcc]
      simp
    unfold read_portfolio_from_excel
    rw [hnone]
    exact length_filterMap_rows df.rows
  · intro row hrow hsym hq
    refine ⟨⟨normalize_ticker (pyStrip row.symbolCell), pyStrip row.symbolCell,
      to_decimal row.quantityCell, to_decimal row.averagePriceCell,
      to_decimal row.previousCloseCell,
      decimal_round (to_decimal row.quantityCell * to_decimal row.averagePriceCell) 2,
      decimal_round (to_decimal row.quantityCell * to_decimal row.previousCloseCell) 2,
      decimal_round
        (decimal_round (to_decimal row.quantityCell * to_decimal row.previousCloseCell) 2
          - decimal_round (to_decimal row.quantityCell * to_decimal row.averagePriceCell) 2)
        2⟩, ?_, ?_⟩
    · unfold process_row
      rw [if_neg hsym]
    · show to_decimal row.quantityCell = 0
      rw [hq]
      rfl

/-! ### Properties of the dividend aggregator -/

/-- Filtering by year then grouping a month agrees with the one-pass filter
on both ex-date components. -/
theorem monthly_sum_selected (dividends : List DivEvent) (year : ℤ) (month : ℕ) :
    monthly_sum (div_selected_year dividends year) month
      = ((dividends.filter
            (fun e => e.year == year && e.month == month)).map
          DivEvent.amount).sum := by
  unfold monthly_sum div_selected_year
  rw [List.filter_filter]
  congr 2
  apply List.filter_congr
  intro e _
  rw [Bool.and_comm]

/-- One pass of the dividend loop adds exactly the item's per-event
contributions for the requested year and month. -/
theorem dividend_step_apply (feed : String → Option (List DivEvent)) (year : ℤ)
    (acc : ℕ → ℚ) (item : String × ℚ) (month : ℕ) :
    dividend_step feed year acc item month
      = acc month + (((fetch_dividends feed item.1).filter
          (fun e => e.year == year && e.month == month)).map
            (fun e => item.2 * e.amount)).sum := by
  unfold dividend_step
  cases hd : fetch_dividends feed item.1 with
  | nil => simp [hd]
  | cons e es =>
    rw [if_neg (by simp : ¬((e :: es).isEmpty = true))]
    show acc month + item.2 * monthly_sum (div_selected_year (e :: es) year) month = _
    rw [monthly_sum_selected, List.sum_map_mul_left]

/-- Folding the dividend loop adds the spec's per-month income to the
accumulator, pointwise in the month. -/
theorem dividend_foldl (feed : String → Option (List DivEvent)) (year : ℤ)
    (portfolio : List (String × ℚ)) (acc : ℕ → ℚ) (month : ℕ) :
    (portfolio.foldl (dividend_step feed year) acc) month
      = acc month + specMonthlyIncome feed portfolio year month := by
  induction portfolio generalizing acc with
  | nil => simp [specMonthlyIncome]
  | cons item rest ih =>
    rw [List.foldl_cons, ih]
    unfold specMonthlyIncome
    simp only [List.map_cons, List.sum_cons]
    rw [dividend_step_apply]
    ring

/-- Under the spec's exact-decimal numeric policy, the code's
group-by-month, sum, then multiply-by-shares order equals the per-event
multiply-then-sum aggregation.  This is the equality claim C1 asserts of
the program; it holds here only because `monthly_sum` sums exactly, whereas
line 194 of the source sums the per-share amounts in binary float64 before
the `Decimal` conversion of line 198, which breaks the exact equality for
ordinary inputs (see the claim C1 record). -/
theorem exact_bucket_matches_per_event_sum (feed : String → Option (List DivEvent))
    (portfolio : List (String × ℚ)) (year : ℤ) (month : ℕ) :
    dividend_tracker_monthly feed portfolio year month
      = specMonthlyIncome feed portfolio year month := by
  unfold dividend_tracker_monthly
  rw [dividend_foldl]
  simp

/-- Claim C1, code_bug record: evaluated at the failing input — one share of
one symbol with two same-month events of 0.1 and 0.2 per share — the
aggregation under the spec's exact-decimal numeric policy yields the exact
per-event sum 3/10.  The program instead multiplies the shares by the
`Decimal` conversion of the float64 sum of 0.1 and 0.2, which is
0.3000000000000000444089209850062616169452667236328125, not 3/10. -/
theorem C1_exact_bucket_at_failing_input :
    dividend_tracker_monthly
        (fun _ => some [⟨2024, 3, 1/10⟩, ⟨2024, 3, 2/10⟩]) [("X", 1)] 2024 3
      = 3/10 := by
  unfold dividend_tracker_monthly
  rw [dividend_foldl]
  unfold specMonthlyIncome fetch_dividends
  norm_num [List.filter]

/-- Claim C5: the dividend view always has exactly twelve monthly entries,
months without contributions carry zero, and the yearly total is the exact
sum of the twelve buckets. -/
theorem C5_twelve_buckets_and_total (feed : String → Option (List DivEvent))
    (portfolio : List (String × ℚ)) (year : ℤ) :
    (monthly_table (dividend_tracker_monthly feed portfolio year)).length = 12 ∧
    (∀ month : ℕ, 1 ≤ month → month ≤ 12 →
      (month, dividend_tracker_monthly feed portfolio year month)
        ∈ monthly_table (dividend_tracker_monthly feed portfolio year)) ∧
    (∀ month : ℕ,
      (∀ item ∈ portfolio,
        (fetch_dividends feed item.1).filter
          (fun e => e.year == year && e.month == month) = []) →
      dividend_tracker_monthly feed portfolio year month = 0) ∧
    total_div (dividend_tracker_monthly feed portfolio year)
      = ((List.range 12).map
          (fun i => specMonthlyIncome feed portfolio year (i + 1))).sum := by
  refine ⟨by simp [monthly_table], ?_, ?_, ?_⟩
  · intro month h1 h2
    unfold monthly_table
    rw [List.mem_map]
    refine ⟨month - 1, List.mem_range.mpr (by omega), ?_⟩
    have e : month - 1 + 1 = month := by omega
    rw [e]
  · intro month hall
    unfold dividend_tracker_monthly
    rw [dividend_foldl]
    have hz : specMonthlyIncome feed portfolio year month = 0 := by
      unfold specMonthlyIncome
      apply List.sum_eq_zero
      intro x hx
      rw [List.mem_map] at hx
      obtain ⟨item, hitem, rfl⟩ := hx
      rw [hall item hitem]
      simp
    rw [hz]
    simp
  · unfold total_div
    congr 1
    apply List.map_congr_left
    intro i _
    unfold dividend_tracker_monthly
    rw [dividend_foldl]
    simp

/-- Claim C6: a holding whose feed fetch fails or returns no data — in
either case `fetch_dividends` yields the empty series — contributes zero to
every monthly bucket; removing it from the portfolio leaves every bucket
unchanged, and the computation never aborts. -/
theorem C6_failed_fetch_contributes_zero (feed : String → Option (List DivEvent))
    (pre post : List (String × ℚ)) (sym : String) (q : ℚ)
    (year : ℤ) (month : ℕ) (hfail : fetch_dividends feed sym = []) :
    dividend_tracker_monthly feed (pre ++ (sym, q) :: post) year month
      = dividend_tracker_monthly feed (pre ++ post) year month := by
  unfold dividend_tracker_monthly
  rw [dividend_foldl, dividend_foldl]
  unfold specMonthlyIncome
  rw [List.map_append, List.map_append, List.sum_append, List.sum_append,
    List.map_cons, List.sum_cons]
  simp [hfail]

/-! ### Normalization and the dividend input step -/

/-- Appending the suffix always produces a suffixed string. -/
theorem strEndsWith_append (s : String) : strEndsWith (s ++ ".NS") ".NS" = true := by
  unfold strEndsWith
  rw [String.data_append]
  simp only [List.isSuffixOf_iff_suffix]
  exact List.suffix_append _ _

/-- Claim C9: symbol normalization maps a raw symbol to the suffixed form,
leaves an already-suffixed symbol unchanged, and is idempotent on every
input string. -/
theorem C9_normalization_idempotent :
    normalize_ticker "TCS" = "TCS.NS" ∧
    normalize_ticker "TCS.NS" = "TCS.NS" ∧
    ∀ s : String, normalize_ticker (normalize_ticker s) = normalize_ticker s := by
  refine ⟨by decide, by decide, ?_⟩
  intro s
  by_cases h : strEndsWith s ".NS" = true
  · have h1 : normalize_ticker s = s := by
      unfold normalize_ticker
      rw [if_pos h]
    rw [h1, h1]
  · have h1 : normalize_ticker s = s ++ ".NS" := by
      unfold normalize_ticker
      rw [if_neg h]
    rw [h1]
    unfold normalize_ticker
    rw [if_pos (strEndsWith_append s)]

/-- Claim C10: when the counts of non-empty comma-separated tickers and
quantities differ, the input step reports an error and yields the empty
portfolio, on which the aggregation computes nothing; with equal counts it
pairs each ticker with exactly one quantity and reports no error. -/
theorem C10_count_mismatch_empty (parse : String → Cell)
    (tickers_str quantities_str : String) :
    (((pySplit ',' tickers_str).filter (fun t => pyStrip t != "")).length
        ≠ ((pySplit ',' quantities_str).filter (fun q => pyStrip q != "")).length →
      get_dividend_portfolio parse tickers_str quantities_str
          = ([], ["Ticker count and quantity count must be equal."]) ∧
      ∀ (feed : String → Option (List DivEvent)) (year : ℤ) (month : ℕ),
        dividend_tracker_monthly feed
          (get_dividend_portfolio parse tickers_str quantities_str).1 year month
            = 0) ∧
    (((pySplit ',' tickers_str).filter (fun t => pyStrip t != "")).length
        = ((pySplit ',' quantities_str).filter (fun q => pyStrip q != "")).length →
      (get_dividend_portfolio parse tickers_str quantities_str).1.length
          = ((pySplit ',' tickers_str).filter (fun t => pyStrip t != "")).length ∧
      (get_dividend_portfolio parse tickers_str quantities_str).2 = []) := by
  constructor
  · intro hne
    have hcond : (((pySplit ',' tickers_str).filter (fun t => pyStrip t != "")).map
          pyStrip).length
        ≠ (((pySplit ',' quantities_str).filter (fun q => pyStrip q != "")).map
            (fun q => to_decimal (parse (pyStrip q)))).length := by
      simpa [List.length_map] using hne
    have hempty : get_dividend_portfolio parse tickers_str quantities_str
        = ([], ["Ticker count and quantity count must be equal."]) := by
      unfold get_dividend_portfolio
      rw [if_pos hcond]
    refine ⟨hempty, ?_⟩
    intro feed year month
    rw [hempty]
    unfold dividend_tracker_monthly
    simp
  · intro heq
    have hcond : ¬ ((((pySplit ',' tickers_str).filter (fun t => pyStrip t != "")).map
          pyStrip).length
        ≠ (((pySplit ',' quantities_str).filter (fun q => pyStrip q != "")).map
            (fun q => to_decimal (parse (pyStrip q)))).length) := by
      simp [List.length_map, heq]
    unfold get_dividend_portfolio
    rw [if_neg hcond]
    constructor
    · rw [List.length_zip]
      simp [List.length_map, heq]
    · rfl

/-! ### Concrete demonstration runs used by the witnesses -/

/-- `process_row` on a demonstration row: 10 shares bought at 100 with
previous close 120. -/
theorem process_row_demo :
    process_row ⟨"INFY", some 10, some 100, some 120⟩
      = some ⟨"INFY.NS", "INFY", (10:ℚ), 100, 120, 1000, 1200, 200⟩ := by
  have hs : pyStrip (⟨"INFY", some 10, some 100, some 120⟩ : Row).symbolCell ≠ "" := by
    decide
  have h6 : decimal_round ((10:ℚ) * 100) 2 = 1000 := by
    rw [show ((10:ℚ) * 100) = 1000 from by norm_num]
    exact decimal_round_eq_self 1000 (by norm_num)
  have h7 : decimal_round ((10:ℚ) * 120) 2 = 1200 := by
    rw [show ((10:ℚ) * 120) = 1200 from by norm_num]
    exact decimal_round_eq_self 1200 (by norm_num)
  have h8 : decimal_round ((1200:ℚ) - 1000) 2 = 200 := by
    rw [show ((1200:ℚ) - 1000) = 200 from by norm_num]
    exact decimal_round_eq_self 200 (by norm_num)
  unfold process_row
  rw [if_neg hs]
  simp only [to_decimal]
  rw [h6, h7, h8]
  decide

/-- The demonstration holding is among the loader's output on a one-row
table carrying all required columns. -/
theorem loader_demo_mem :
    (⟨"INFY.NS", "INFY", (10:ℚ), 100, 120, 1000, 1200, 200⟩ : Holding)
      ∈ (read_portfolio_from_excel
          ⟨required_cols, [⟨"INFY", some 10, some 100, some 120⟩]⟩).1 := by
  have hfind : required_cols.find?
      (fun col => !((⟨required_cols,
        [⟨"INFY", some 10, some 100, some 120⟩]⟩ : Table).columns.contains col))
      = none := by decide
  unfold read_portfolio_from_excel
  rw [hfind]
  exact List.mem_filterMap.mpr
    ⟨⟨"INFY", some 10, some 100, some 120⟩, List.mem_singleton_self _,
      process_row_demo⟩

/-- Witness for C2 at the demonstration table. -/
theorem C2_row_values_rounded_half_up_witness :
    ((⟨"INFY.NS", "INFY", (10:ℚ), 100, 120, 1000, 1200, 200⟩ : Holding)
        ∈ (read_portfolio_from_excel
            ⟨required_cols, [⟨"INFY", some 10, some 100, some 120⟩]⟩).1) ∧
    ((1000:ℚ) = decimal_round ((10:ℚ) * 100) 2 ∧
      spec_round2_half_up ((10:ℚ) * 100) 1000 ∧
      (1200:ℚ) = decimal_round ((10:ℚ) * 120) 2 ∧
      spec_round2_half_up ((10:ℚ) * 120) 1200) :=
  ⟨loader_demo_mem, C2_row_values_rounded_half_up _ _ loader_demo_mem⟩

/-- Witness for C4 at the demonstration table. -/
theorem C4_gain_loss_exact_difference_witness :
    ((⟨"INFY.NS", "INFY", (10:ℚ), 100, 120, 1000, 1200, 200⟩ : Holding)
        ∈ (read_portfolio_from_excel
            ⟨required_cols, [⟨"INFY", some 10, some 100, some 120⟩]⟩).1) ∧
    (200:ℚ) = 1200 - 1000 :=
  ⟨loader_demo_mem, C4_gain_loss_exact_difference _ _ loader_demo_mem⟩

/-- Witness for C5 on a portfolio whose only feed fails. -/
theorem C5_twelve_buckets_and_total_witness :
    (monthly_table (dividend_tracker_monthly
        (fun _ => (none : Option (List DivEvent))) [("TCS.NS", 10)] 2025)).length
      = 12 ∧
    ((3:ℕ), dividend_tracker_monthly
        (fun _ => (none : Option (List DivEvent))) [("TCS.NS", 10)] 2025 3)
      ∈ monthly_table (dividend_tracker_monthly
          (fun _ => (none : Option (List DivEvent))) [("TCS.NS", 10)] 2025) ∧
    (∀ item ∈ [(("TCS.NS" : String), (10:ℚ))],
      (fetch_dividends (fun _ => (none : Option (List DivEvent))) item.1).filter
        (fun e => e.year == (2025:ℤ) && e.month == 3) = []) ∧
    dividend_tracker_monthly
        (fun _ => (none : Option (List DivEvent))) [("TCS.NS", 10)] 2025 3 = 0 := by
  have hall : ∀ item ∈ [(("TCS.NS" : String), (10:ℚ))],
      (fetch_dividends (fun _ => (none : Option (List DivEvent))) item.1).filter
        (fun e => e.year == (2025:ℤ) && e.month == 3) = [] := by decide
  refine ⟨(C5_twelve_buckets_and_total _ _ _).1,
    (C5_twelve_buckets_and_total _ _ _).2.1 3 (by decide) (by decide),
    hall,
    (C5_twelve_buckets_and_total _ _ _).2.2.1 3 hall⟩

/-- Witness for C6, covering both failure modes: a symbol whose fetch
raises (`FAIL.NS`, feed `none`) and a symbol whose fetch returns no data
(`EMPTY.NS`, feed `some []`) are each dropped without changing the April
bucket of the rest of the portfolio. -/
theorem C6_failed_fetch_contributes_zero_witness :
    fetch_dividends demo_feed "FAIL.NS" = [] ∧
    dividend_tracker_monthly demo_feed
        ([] ++ ("FAIL.NS", 5) :: [("GOOD.NS", 10)]) 2023 4
      = dividend_tracker_monthly demo_feed ([] ++ [("GOOD.NS", 10)]) 2023 4 ∧
    fetch_dividends demo_feed "EMPTY.NS" = [] ∧
    dividend_tracker_monthly demo_feed
        ([("GOOD.NS", 10)] ++ ("EMPTY.NS", 7) :: []) 2023 4
      = dividend_tracker_monthly demo_feed ([("GOOD.NS", 10)] ++ []) 2023 4 :=
  ⟨by decide,
   C6_failed_fetch_contributes_zero demo_feed [] [("GOOD.NS", 10)] "FAIL.NS" 5 2023 4
     (by decide),
   by decide,
   C6_failed_fetch_contributes_zero demo_feed [("GOOD.NS", 10)] [] "EMPTY.NS" 7 2023 4
     (by decide)⟩

/-- Witness for C7 on a table missing every required column but Symbol. -/
theorem C7_missing_column_fail_fast_witness :
    (∃ col ∈ required_cols, ¬ (⟨["Symbol"], []⟩ : Table).columns.contains col) ∧
    (read_portfolio_from_excel ⟨["Symbol"], []⟩).1 = [] := by
  have hmiss : ∃ col ∈ required_cols,
      ¬ (⟨["Symbol"], []⟩ : Table).columns.contains col := by decide
  exact ⟨hmiss, (C7_missing_column_fail_fast _ hmiss).1⟩

/-- Witness for C8 on a row whose quantity cell fails to parse. -/
theorem C8_unparseable_cell_coerces_to_zero_witness :
    required_cols.all (fun col =>
      (⟨required_cols, [⟨"TCS", none, some 5, some 7⟩]⟩ : Table).columns.contains col)
        = true ∧
    to_decimal none = 0 ∧
    (read_portfolio_from_excel
        ⟨required_cols, [⟨"TCS", none, some 5, some 7⟩]⟩).1.length
      = ((⟨required_cols, [⟨"TCS", none, some 5, some 7⟩]⟩ : Table).rows.filter
          (fun r => pyStrip r.symbolCell != "")).length ∧
    (∃ h, process_row ⟨"TCS", none, some 5, some 7⟩ = some h ∧ h.shares = 0) := by
  have hcols : required_cols.all (fun col =>
      (⟨required_cols, [⟨"TCS", none, some 5, some 7⟩]⟩ : Table).columns.contains col)
        = true := by decide
  refine ⟨hcols, (C8_unparseable_cell_coerces_to_zero _ hcols).1,
    (C8_unparseable_cell_coerces_to_zero _ hcols).2.1,
    (C8_unparseable_cell_coerces_to_zero _ hcols).2.2
      ⟨"TCS", none, some 5, some 7⟩ (List.mem_singleton_self _) (by decide) rfl⟩

/-- Witness for C10 on two tickers against a single quantity. -/
theorem C10_count_mismatch_empty_witness :
    ((pySplit ',' "TCS.NS, INFY.NS").filter (fun t => pyStrip t != "")).length
        ≠ ((pySplit ',' "10").filter (fun q => pyStrip q != "")).length ∧
    get_dividend_portfolio (fun _ => (none : Cell)) "TCS.NS, INFY.NS" "10"
        = ([], ["Ticker count and quantity count must be equal."]) := by
  have hne : ((pySplit ',' "TCS.NS, INFY.NS").filter (fun t => pyStrip t != "")).length
      ≠ ((pySplit ',' "10").filter (fun q => pyStrip q != "")).length := by decide
  exact ⟨hne,
    ((C10_count_mismatch_empty (fun _ => (none : Cell)) "TCS.NS, INFY.NS" "10").1 hne).1⟩
